import Mathlib

/-!
Shallow embedding of the streaming audio-shader engine
(`WebGLAudioShader` in the repository's streaming variant).

The engine is a producer/consumer pipeline between a main execution
context (generation loop, playback scheduler, lifecycle controller) and a
background worker (WebGL renderer).  We embed it as an explicit
message-passing transition system:

* `MainState` mirrors the fields of the `WebGLAudioShader` instance.
* `WorkerState` mirrors the worker-global state (`maxTextureSize`).
* `Sys` couples both with the two FIFO message queues (main → worker
  `inbox`, worker → main `outbox`) that model `postMessage` in each
  direction; the worker processes its inbox strictly in order, and the
  main thread consumes worker replies strictly in order.
* Device time (`audioContext.currentTime`) enters as an explicit `now`
  parameter on the events that read it.  Floats are modelled as `ℚ`.
* GPU success/failure (context loss, compile errors) is an oracle on the
  worker-step event; the evaluated shader program is an abstract function
  `f : ℚ → ℚ × ℚ` (the `mainSound` entry point).
-/

namespace AudioShader

/-- A scheduled playback unit: an `AudioBufferSourceNode` that has been
`start`ed, together with the stereo data of its `AudioBuffer`. -/
structure Source where
  startTime : ℚ
  duration : ℚ
  left : List ℚ
  right : List ℚ
  deriving DecidableEq, Repr

/-- Messages posted from the main thread to the render worker
(`renderWorker.postMessage`). -/
inductive WMsg where
  | init (shaderCode : String)
  | render (numSamples : ℕ) (sampleRate timeOffset : ℚ)
  | updateShader (shaderCode : String)
  deriving DecidableEq, Repr

/-- Messages posted from the worker back to the main thread
(`self.postMessage`).  The `fromRender` tag on `error` is ghost
observational data recording whether the error replies to a `render`
request; the main thread's handler ignores it, exactly as the source's
single `error` branch does. -/
inductive MMsg where
  | ready
  | maxTex (size : ℕ)
  | audioData (data : List ℚ)
  | error (fromRender : Bool)
  deriving DecidableEq, Repr

/-- The `WebGLAudioShader` instance fields.

`swapPending` models the set of `setShader` calls whose
`await`-for-readiness polling loop has not yet resolved, each recording
its captured `wasRunning`; `halted` is ghost state accumulating every
source on which `stop()` called `source.stop()`/`disconnect()`. -/
structure MainState where
  isRunning : Bool
  currentTime : ℚ
  scheduledUntil : ℚ
  scheduledSources : List Source
  maxTextureSize : ℕ
  bufferAheadTime : ℚ
  generating : Bool
  workerReady : Bool
  sampleRate : ℚ
  shaderCode : String
  swapPending : List Bool
  halted : List Source
  disposed : Bool
  deriving DecidableEq, Repr

/-- Worker-global state: its own `maxTextureSize` (initially 4096,
replaced on `init` by the discovered device limit `deviceMax`). -/
structure WorkerState where
  maxTextureSize : ℕ
  deviceMax : ℕ
  deriving DecidableEq, Repr

/-- Whole-system state: both contexts plus the two FIFO queues. -/
structure Sys where
  m : MainState
  w : WorkerState
  inbox : List WMsg
  outbox : List MMsg
  deriving DecidableEq, Repr

/-- `start()`: no-op when already running, otherwise set Running and
initialize the timeline (`scheduledUntil = now`, `currentTime = 0`). -/
def startFn (now : ℚ) (s : MainState) : MainState :=
  if s.isRunning then s
  else { s with isRunning := true, scheduledUntil := now, currentTime := 0 }

/-- `stop()`: clear Running, halt and release every tracked source
(recorded in the ghost `halted` list), clear the tracked set, reset the
timeline to 0.  Note: `generating` is not touched. -/
def stopFn (s : MainState) : MainState :=
  { s with isRunning := false,
           halted := s.halted ++ s.scheduledSources,
           scheduledSources := [],
           currentTime := 0,
           scheduledUntil := 0 }

/-- `dispose()`: `stop()`, then terminate the worker and close the audio
context (summarized by the `disposed` flag). -/
def disposeFn (s : MainState) : MainState :=
  { stopFn s with disposed := true }

/-- `onAudioDataGenerated(audioData)`: discard when not running;
otherwise de-interleave the chunk into an `AudioBuffer`
(`numSamples = audioData.length / 2`, left channel from even indices,
right channel from odd indices), schedule it at
`max(scheduledUntil, now + 0.1)`, and advance both watermarks by the
buffer's duration `numSamples / sampleRate`. -/
def onAudioDataGenerated (now : ℚ) (audioData : List ℚ) (s : MainState) : MainState :=
  if s.isRunning = false then s else
  let numSamples := audioData.length / 2
  let leftChannel := (List.range numSamples).map fun i => audioData.getD (i * 2) 0
  let rightChannel := (List.range numSamples).map fun i => audioData.getD (i * 2 + 1) 0
  let dur : ℚ := (numSamples : ℚ) / s.sampleRate
  let startTime := max s.scheduledUntil (now + 1 / 10)
  { s with
      scheduledSources :=
        s.scheduledSources ++ [⟨startTime, dur, leftChannel, rightChannel⟩],
      scheduledUntil := startTime + dur,
      currentTime := s.currentTime + dur }

/-- The main thread's `renderWorker.onmessage` handler. -/
def handleMsg (now : ℚ) (msg : MMsg) (s : MainState) : MainState :=
  match msg with
  | .ready => { s with workerReady := true }
  | .maxTex size => { s with maxTextureSize := size }
  | .audioData data => onAudioDataGenerated now data { s with generating := false }
  | .error _ => { s with generating := false }

/-- One pass of `generationLoop()` (the re-arming via
`requestAnimationFrame` is the external event cadence): when running and
`scheduledUntil - now < bufferAheadTime` with the worker ready and no
generation in flight, set `generating` and post a `render` request for
`min(maxTextureSize, 8192)` samples at `timeOffset = currentTime`. -/
def generationTick (now : ℚ) (s : MainState) : MainState × List WMsg :=
  if s.isRunning = false then (s, [])
  else
    let bufferedTime := s.scheduledUntil - now
    if bufferedTime < s.bufferAheadTime ∧ s.workerReady = true ∧ s.generating = false then
      ({ s with generating := true },
       [.render (min s.maxTextureSize 8192) s.sampleRate s.currentTime])
    else (s, [])

/-- The synchronous prefix of `setShader(code)` on the update path (no
offscreen canvas): record the code, clear `workerReady`, stop if
running, post `updateShader`, and enqueue a readiness waiter carrying
the captured `wasRunning`. -/
def setShaderFn (code : String) (s : MainState) : MainState × List WMsg :=
  let wasRunning := s.isRunning
  let s1 := { s with shaderCode := code, workerReady := false }
  let s2 := if wasRunning then stopFn s1 else s1
  ({ s2 with swapPending := s2.swapPending ++ [wasRunning] }, [.updateShader code])

/-- One readiness waiter's `checkReady` interval observing
`workerReady = true`: resolve the promise and, when the captured
`wasRunning` was true, restart playback. -/
def swapDoneFn (now : ℚ) (s : MainState) : MainState :=
  match s.swapPending with
  | [] => s
  | w :: rest =>
      if s.workerReady = true then
        let s1 := { s with swapPending := rest }
        if w then startFn now s1 else s1
      else s

/-- The worker's `generateAudio(numSamples, sampleRate, timeOffset)` on
its success path: clamp the width to `maxTextureSize`, evaluate the
shader once per clamped sample at `time = i / sampleRate + timeOffset`
into an RGBA pixel row, then extract the interleaved stereo chunk
(`audioData[2i] = pixelData[4i]`, `audioData[2i+1] = pixelData[4i+1]`). -/
def generateAudio (f : ℚ → ℚ × ℚ) (maxTextureSize numSamples : ℕ)
    (sampleRate timeOffset : ℚ) : List ℚ :=
  let clampedSamples := min numSamples maxTextureSize
  let pixelData := (List.range clampedSamples).flatMap fun i =>
    [(f ((i : ℚ) / sampleRate + timeOffset)).1,
     (f ((i : ℚ) / sampleRate + timeOffset)).2, 0, 1]
  (List.range clampedSamples).flatMap fun i =>
    [pixelData.getD (i * 4) 0, pixelData.getD (i * 4 + 1) 0]

/-- The worker's `onmessage` handler processing one inbox message.
`glOk` is the oracle for GPU-side success (context creation /
framebuffer completeness), `compileOk` for shader compile/link success.
`init` discovers the device limit and reports it, then compiles;
`updateShader` reports `ready` or an error; `render` replies with one
`audioData` chunk or an error. -/
def workerProcess (f : ℚ → ℚ × ℚ) (glOk compileOk : Bool) (msg : WMsg)
    (w : WorkerState) : WorkerState × List MMsg :=
  match msg with
  | .init _ =>
      if glOk then
        ({ w with maxTextureSize := w.deviceMax },
         .maxTex w.deviceMax :: (if compileOk then [.ready] else [.error false]))
      else (w, [.error false])
  | .updateShader _ =>
      (w, if compileOk then [.ready] else [.error false])
  | .render n sr t =>
      if glOk then (w, [.audioData (generateAudio f w.maxTextureSize n sr t)])
      else (w, [.error true])

/-- Events of the coupled system. -/
inductive Ev where
  | tick (now : ℚ)
  | recv (now : ℚ)
  | wstep (glOk compileOk : Bool)
  | startEv (now : ℚ)
  | stopEv
  | setShaderEv (code : String)
  | swapDone (now : ℚ)
  | sourceEnded (i : ℕ)
  | disposeEv
  deriving DecidableEq, Repr

/-- Small-step semantics of the coupled system.  Queue-consuming events
with an empty queue are no-ops (nothing to deliver). -/
def step (f : ℚ → ℚ × ℚ) (e : Ev) (s : Sys) : Sys :=
  match e with
  | .tick now =>
      let p := generationTick now s.m
      { s with m := p.1, inbox := s.inbox ++ p.2 }
  | .recv now =>
      match s.outbox with
      | [] => s
      | msg :: rest => { s with m := handleMsg now msg s.m, outbox := rest }
  | .wstep glOk compileOk =>
      match s.inbox with
      | [] => s
      | msg :: rest =>
          let p := workerProcess f glOk compileOk msg s.w
          { s with w := p.1, inbox := rest, outbox := s.outbox ++ p.2 }
  | .startEv now => { s with m := startFn now s.m }
  | .stopEv => { s with m := stopFn s.m }
  | .setShaderEv code =>
      let p := setShaderFn code s.m
      { s with m := p.1, inbox := s.inbox ++ p.2 }
  | .swapDone now => { s with m := swapDoneFn now s.m }
  | .sourceEnded i =>
      { s with m := { s.m with scheduledSources := s.m.scheduledSources.eraseIdx i } }
  | .disposeEv => { s with m := disposeFn s.m }

/-- Run a trace of events from a state. -/
def run (f : ℚ → ℚ × ℚ) (s : Sys) (evs : List Ev) : Sys :=
  evs.foldl (fun s e => step f e s) s

/-- The instance state right after the constructor. -/
def initMain (sampleRate : ℚ) : MainState where
  isRunning := false
  currentTime := 0
  scheduledUntil := 0
  scheduledSources := []
  maxTextureSize := 4096
  bufferAheadTime := 1
  generating := false
  workerReady := false
  sampleRate := sampleRate
  shaderCode := ""
  swapPending := []
  halted := []
  disposed := false

/-- The system state after `init(code)` has posted the worker's `init`
message: the initial `setShader(code, offscreen)` call is one pending
readiness waiter (with `wasRunning = false`). -/
def initSys (sampleRate : ℚ) (deviceMax : ℕ) (code : String) : Sys where
  m := { initMain sampleRate with shaderCode := code, swapPending := [false] }
  w := { maxTextureSize := 4096, deviceMax := deviceMax }
  inbox := [.init code]
  outbox := []

/-- Message classifiers used by the in-flight accounting. -/
def isRenderMsg : WMsg → Bool
  | .render _ _ _ => true
  | _ => false

def isShaderMsg : WMsg → Bool
  | .init _ => true
  | .updateShader _ => true
  | _ => false

def isRenderReply : MMsg → Bool
  | .audioData _ => true
  | .error b => b
  | _ => false

def isCompletion : MMsg → Bool
  | .ready => true
  | .error b => !b
  | _ => false

def isMaxTex : MMsg → Bool
  | .maxTex _ => true
  | _ => false

def isShaderReply : MMsg → Bool
  | .ready => true
  | .maxTex _ => true
  | .error b => !b
  | _ => false

/-- Number of GenerationRequests in flight: `render` messages waiting in
the worker's inbox plus render replies travelling back to the main
thread. -/
def flight (s : Sys) : ℕ :=
  s.inbox.countP isRenderMsg + s.outbox.countP isRenderReply

/-- `noAfterB x y l` holds when no `x`-element occurs strictly after a
`y`-element of `l` (FIFO-order bookkeeping for the queues). -/
def noAfterB (x y : α → Bool) : List α → Bool
  | [] => true
  | a :: t => (!(y a) || t.countP x == 0) && noAfterB x y t

/-- The inductive invariant of the coupled system under serialized
program swaps, over the worker inbox `I`, the reply outbox `O`, the
`generating` flag `g`, the `workerReady` flag `r` and the pending-swap
waiters `p`.  `flight_le`/`gen_iff` are the single-in-flight facts; the
remaining fields are the FIFO bookkeeping needed to push them through
every event. -/
structure InvD (I : List WMsg) (O : List MMsg) (g r : Bool) (p : List Bool) : Prop where
  flight_le : I.countP isRenderMsg + O.countP isRenderReply ≤ 1
  gen_iff : g = true ↔ I.countP isRenderMsg + O.countP isRenderReply = 1
  shader_le : I.countP isShaderMsg + O.countP isCompletion ≤ 1
  ready_clean : r = true → I.countP isShaderMsg = 0 ∧ O.countP isShaderReply = 0
  inbox_ord : noAfterB isRenderMsg isShaderMsg I = true
  render_excl : 1 ≤ I.countP isRenderMsg → O.countP isShaderReply = 0
  outbox_ord : noAfterB isRenderReply isShaderReply O = true
  maxtex_ord : noAfterB isMaxTex isCompletion O = true
  swap_track : 1 ≤ I.countP isShaderMsg + O.countP isCompletion → p ≠ []

/-- The invariant read off a system state. -/
def Inv (s : Sys) : Prop :=
  InvD s.inbox s.outbox s.m.generating s.m.workerReady s.m.swapPending

/-- An event respects swap serialization in a state: a `setShader` call
happens only when no earlier `setShader` readiness wait is pending. -/
def evOk (s : Sys) : Ev → Bool
  | .setShaderEv _ => s.m.swapPending.isEmpty
  | _ => true

/-- A trace is swap-serialized when every `setShader` call happens only
after all earlier `setShader` readiness waits have resolved. -/
def okEvs (f : ℚ → ℚ × ℚ) : Sys → List Ev → Bool
  | _, [] => true
  | s, e :: t => evOk s e && okEvs f (step f e s) t

/-! ### Field-preservation lemmas -/

@[simp] theorem stopFn_generating (s : MainState) : (stopFn s).generating = s.generating := rfl

@[simp] theorem stopFn_workerReady (s : MainState) :
    (stopFn s).workerReady = s.workerReady := rfl

@[simp] theorem stopFn_swapPending (s : MainState) :
    (stopFn s).swapPending = s.swapPending := rfl

@[simp] theorem startFn_generating (now : ℚ) (s : MainState) :
    (startFn now s).generating = s.generating := by
  unfold startFn; split <;> rfl

@[simp] theorem startFn_workerReady (now : ℚ) (s : MainState) :
    (startFn now s).workerReady = s.workerReady := by
  unfold startFn; split <;> rfl

@[simp] theorem startFn_swapPending (now : ℚ) (s : MainState) :
    (startFn now s).swapPending = s.swapPending := by
  unfold startFn; split <;> rfl

@[simp] theorem onAudio_generating (now : ℚ) (d : List ℚ) (s : MainState) :
    (onAudioDataGenerated now d s).generating = s.generating := by
  unfold onAudioDataGenerated; split <;> rfl

@[simp] theorem onAudio_workerReady (now : ℚ) (d : List ℚ) (s : MainState) :
    (onAudioDataGenerated now d s).workerReady = s.workerReady := by
  unfold onAudioDataGenerated; split <;> rfl

@[simp] theorem onAudio_swapPending (now : ℚ) (d : List ℚ) (s : MainState) :
    (onAudioDataGenerated now d s).swapPending = s.swapPending := by
  unfold onAudioDataGenerated; split <;> rfl

/-! ### List bookkeeping lemmas -/

theorem noAfterB_cons_iff {x y : α → Bool} {a : α} {t : List α} :
    noAfterB x y (a :: t) = true ↔
      ((y a = true → t.countP x = 0) ∧ noAfterB x y t = true) := by
  cases hy : y a <;> simp [noAfterB, hy]

theorem noAfterB_append_iff {x y : α → Bool} {l r : List α} :
    noAfterB x y (l ++ r) = true ↔
      (noAfterB x y l = true ∧ noAfterB x y r = true ∧
        (0 < l.countP y → r.countP x = 0)) := by
  induction l with
  | nil => simp [noAfterB]
  | cons a t ih =>
      rw [List.cons_append, noAfterB_cons_iff, noAfterB_cons_iff, ih]
      cases hy : y a
      · simp [List.countP_cons, hy]
      · constructor
        · rintro ⟨h1, h2, h3, h4⟩
          have := h1 rfl
          rw [List.countP_append] at this
          refine ⟨⟨fun _ => by omega, h2⟩, h3, fun _ => by omega⟩
        · rintro ⟨⟨h1, h2⟩, h3, h4⟩
          have hx := h1 rfl
          have hr := h4 (by simp [List.countP_cons, hy])
          exact ⟨fun _ => by rw [List.countP_append]; omega, h2, h3, fun _ => hr⟩

theorem countP_or_le {p q : α → Bool} (l : List α) :
    l.countP (fun a => p a || q a) ≤ l.countP p + l.countP q := by
  induction l with
  | nil => simp
  | cons a t ih =>
      simp only [List.countP_cons]
      cases hp : p a <;> cases hq : q a <;> simp [hp, hq] <;> omega

theorem isShaderReply_eq (a : MMsg) :
    isShaderReply a = (isCompletion a || isMaxTex a) := by
  cases a with
  | error b => cases b <;> rfl
  | _ => rfl

/-- Shader replies are bounded by completions plus `maxTextureSize`
reports. -/
theorem countP_shaderReply_le (l : List MMsg) :
    l.countP isShaderReply ≤ l.countP isCompletion + l.countP isMaxTex := by
  have h : l.countP isShaderReply =
      l.countP (fun a => isCompletion a || isMaxTex a) := by
    refine List.countP_congr fun a _ => ?_
    rw [isShaderReply_eq]
  calc l.countP isShaderReply
      = l.countP (fun a => isCompletion a || isMaxTex a) := h
    _ ≤ l.countP isCompletion + l.countP isMaxTex := countP_or_le _

/-- A completion is a shader reply. -/
theorem countP_completion_le (l : List MMsg) :
    l.countP isCompletion ≤ l.countP isShaderReply := by
  refine List.countP_mono_left fun a _ h => ?_
  cases a with
  | error b => cases b <;> simp_all [isCompletion, isShaderReply]
  | ready => rfl
  | maxTex n => rfl
  | audioData d => simp [isCompletion] at h

/-- Length of a `flatMap` over `range` with fixed-size blocks. -/
theorem flatMap_blocks_length (blk : ℕ → List ℚ) (L : ℕ)
    (hL : ∀ j, (blk j).length = L) (k : ℕ) :
    ((List.range k).flatMap blk).length = k * L := by
  induction k with
  | zero => simp
  | succ k ih =>
      rw [List.range_succ, List.flatMap_append, List.length_append, ih]
      simp [hL, Nat.succ_mul]

/-- Indexing into a `flatMap` over `range` with fixed-size blocks. -/
theorem flatMap_blocks_getD (blk : ℕ → List ℚ) (L : ℕ)
    (hL : ∀ j, (blk j).length = L) (k i r : ℕ) (hi : i < k) (hr : r < L) :
    ((List.range k).flatMap blk).getD (i * L + r) 0 = (blk i).getD r 0 := by
  induction k with
  | zero => omega
  | succ k ih =>
      rw [List.range_succ, List.flatMap_append, List.flatMap_singleton]
      rcases Nat.lt_or_ge i k with hik | hik
      · rw [List.getD_append]
        · exact ih hik
        · rw [flatMap_blocks_length blk L hL]
          calc i * L + r < i * L + L := by omega
            _ = (i + 1) * L := by ring
            _ ≤ k * L := Nat.mul_le_mul_right L hik
      · have hik' : i = k := by omega
        subst hik'
        rw [List.getD_append_right]
        · rw [flatMap_blocks_length blk L hL]
          congr 1
          omega
        · rw [flatMap_blocks_length blk L hL]
          omega

/-- Indexing into a `map` over `range`. -/
theorem map_range_getD (g : ℕ → ℚ) (k i : ℕ) (hi : i < k) :
    ((List.range k).map g).getD i 0 = g i := by
  rw [List.getD_eq_getElem?_getD, List.getElem?_map, List.getElem?_range hi]
  rfl

/-! ### Claim theorems -/

/-- C9: `dispose()` is idempotent — running the dispose event twice from
any system state yields exactly the state produced by running it once:
the second call completes as a no-op without reporting an error. -/
theorem c9_dispose_idempotent (f : ℚ → ℚ × ℚ) (s : Sys) :
    step f .disposeEv (step f .disposeEv s) = step f .disposeEv s := by
  simp [step, disposeFn, stopFn]

/-- C5: after `stop()` the instance is Stopped, every previously tracked
PlaybackUnit has been halted (it lands in the ghost `halted` set), the
tracked set is empty, and both `currentTime` and `scheduledUntil` are 0;
a subsequent `start()` begins a fresh timeline (`currentTime = 0`,
`scheduledUntil = deviceNow`, no tracked units) independent of the
pre-stop state. -/
theorem c5_stop_resets (m : MainState) (now : ℚ) (u : Source)
    (hu : u ∈ m.scheduledSources) :
    (stopFn m).isRunning = false ∧
    (stopFn m).scheduledSources = [] ∧
    (stopFn m).currentTime = 0 ∧
    (stopFn m).scheduledUntil = 0 ∧
    u ∈ (stopFn m).halted ∧
    (startFn now (stopFn m)).isRunning = true ∧
    (startFn now (stopFn m)).currentTime = 0 ∧
    (startFn now (stopFn m)).scheduledUntil = now ∧
    (startFn now (stopFn m)).scheduledSources = [] := by
  refine ⟨rfl, rfl, rfl, rfl, ?_, ?_, ?_, ?_, ?_⟩
  · simp [stopFn, hu]
  all_goals simp [startFn, stopFn]

/-- Witness for C5 at a concrete pre-stop state. -/
theorem c5_stop_resets_witness :
    (⟨1, 1, [], []⟩ : Source) ∈
        ({ initMain 10 with
            isRunning := true, currentTime := 5, scheduledUntil := 7,
            scheduledSources := [⟨1, 1, [], []⟩] } : MainState).scheduledSources ∧
    ((stopFn { initMain 10 with
        isRunning := true, currentTime := 5, scheduledUntil := 7,
        scheduledSources := [⟨1, 1, [], []⟩] }).scheduledSources = [] ∧
      (startFn 3 (stopFn { initMain 10 with
        isRunning := true, currentTime := 5, scheduledUntil := 7,
        scheduledSources := [⟨1, 1, [], []⟩] })).scheduledUntil = 3) := by
  have h := c5_stop_resets
    { initMain 10 with
        isRunning := true, currentTime := 5, scheduledUntil := 7,
        scheduledSources := [⟨1, 1, [], []⟩] } 3 ⟨1, 1, [], []⟩ (by simp)
  exact ⟨by simp, h.2.1, h.2.2.2.2.2.2.2.1⟩

/-- C7: an `audioData` result handled while the instance is not running
is discarded silently — no PlaybackUnit is scheduled and `currentTime`,
`scheduledUntil` and the tracked-unit set are unchanged. -/
theorem c7_stale_chunk_discarded (now : ℚ) (data : List ℚ) (m : MainState)
    (h : m.isRunning = false) :
    (handleMsg now (.audioData data) m).currentTime = m.currentTime ∧
    (handleMsg now (.audioData data) m).scheduledUntil = m.scheduledUntil ∧
    (handleMsg now (.audioData data) m).scheduledSources = m.scheduledSources := by
  simp [handleMsg, onAudioDataGenerated, h]

/-- Witness for C7 at a concrete stopped state. -/
theorem c7_stale_chunk_discarded_witness :
    (initMain 10).isRunning = false ∧
    (handleMsg 2 (.audioData [1, 1]) (initMain 10)).scheduledSources =
      (initMain 10).scheduledSources := by
  exact ⟨rfl, (c7_stale_chunk_discarded 2 [1, 1] (initMain 10) rfl).2.2⟩

/-- C3: on a generation-loop tick while running (with the constructed
lookahead target of 1.0 s), a request is posted iff
`scheduledUntil - now < 1` and the worker is ready and no request is in
flight; a posted request carries `numSamples = min(maxTextureSize, 8192)`
and `timeOffset = currentTime`, and sets the in-flight flag; otherwise
the tick changes nothing. -/
theorem c3_tick_issue_iff (now : ℚ) (m : MainState)
    (hrun : m.isRunning = true) (hlook : m.bufferAheadTime = 1) :
    ((generationTick now m).2 ≠ [] ↔
      (m.scheduledUntil - now < 1 ∧ m.workerReady = true ∧ m.generating = false)) ∧
    (m.scheduledUntil - now < 1 ∧ m.workerReady = true ∧ m.generating = false →
      (generationTick now m).2 =
          [.render (min m.maxTextureSize 8192) m.sampleRate m.currentTime] ∧
        (generationTick now m).1.generating = true) ∧
    (¬(m.scheduledUntil - now < 1 ∧ m.workerReady = true ∧ m.generating = false) →
      generationTick now m = (m, [])) := by
  by_cases hc : m.scheduledUntil - now < 1 ∧ m.workerReady = true ∧ m.generating = false
  · simp [generationTick, hrun, hlook, hc]
  · simp [generationTick, hrun, hlook, hc]

/-- Witness for C3 at a concrete running state with an empty buffer. -/
theorem c3_tick_issue_iff_witness :
    ({ initMain 48000 with isRunning := true, workerReady := true } : MainState).isRunning
        = true ∧
    ({ initMain 48000 with isRunning := true, workerReady := true } : MainState).bufferAheadTime
        = 1 ∧
    (generationTick 0 { initMain 48000 with isRunning := true, workerReady := true }).2 =
      [.render 4096 48000 0] := by
  refine ⟨rfl, rfl, ?_⟩
  have h := c3_tick_issue_iff 0
    { initMain 48000 with isRunning := true, workerReady := true } rfl rfl
  have hc : ({ initMain 48000 with isRunning := true, workerReady := true } :
      MainState).scheduledUntil - 0 < 1 ∧
      ({ initMain 48000 with isRunning := true, workerReady := true } :
        MainState).workerReady = true ∧
      ({ initMain 48000 with isRunning := true, workerReady := true } :
        MainState).generating = false := by
    refine ⟨?_, rfl, rfl⟩
    norm_num [initMain]
  simpa [initMain] using (h.2.1 hc).1

/-- C4: a chunk received while running is scheduled at
`max(scheduledUntil, now + 0.1)`; afterwards `scheduledUntil` equals
that start time plus the unit's duration and `currentTime` has advanced
by the chunk's duration `(length / 2) / sampleRate`. -/
theorem c4_schedule_advances (now : ℚ) (data : List ℚ) (m : MainState)
    (hrun : m.isRunning = true) (heven : data.length % 2 = 0) :
    (onAudioDataGenerated now data m).scheduledSources =
        m.scheduledSources ++
          [⟨max m.scheduledUntil (now + 1 / 10),
            ((data.length / 2 : ℕ) : ℚ) / m.sampleRate,
            (List.range (data.length / 2)).map fun i => data.getD (i * 2) 0,
            (List.range (data.length / 2)).map fun i => data.getD (i * 2 + 1) 0⟩] ∧
    (onAudioDataGenerated now data m).scheduledUntil =
      max m.scheduledUntil (now + 1 / 10) + ((data.length / 2 : ℕ) : ℚ) / m.sampleRate ∧
    (onAudioDataGenerated now data m).currentTime =
      m.currentTime + ((data.length / 2 : ℕ) : ℚ) / m.sampleRate := by
  simp [onAudioDataGenerated, hrun]

/-- Witness for C4: one stereo frame received at device time 2 while
running with `sampleRate = 10` and `scheduledUntil = 5`. -/
theorem c4_schedule_advances_witness :
    ({ initMain 10 with isRunning := true, scheduledUntil := 5 } : MainState).isRunning
        = true ∧
    ([ (3 : ℚ), 4 ] : List ℚ).length % 2 = 0 ∧
    (onAudioDataGenerated 2 [3, 4]
        { initMain 10 with isRunning := true, scheduledUntil := 5 }).scheduledUntil =
      5 + 1 / 10 ∧
    (onAudioDataGenerated 2 [3, 4]
        { initMain 10 with isRunning := true, scheduledUntil := 5 }).currentTime =
      1 / 10 := by
  have h := c4_schedule_advances 2 [3, 4]
    { initMain 10 with isRunning := true, scheduledUntil := 5 } rfl rfl
  refine ⟨rfl, rfl, ?_, ?_⟩
  · rw [h.2.1]
    norm_num [initMain]
  · rw [h.2.2]
    norm_num [initMain]

/-- C1 counterexample: immediately after `start()` at device time 0, a
one-frame chunk (duration 1/10 at `sampleRate = 10`) is scheduled at
`max(0, 0 + 0.1) = 0.1`, which is not the previous `scheduledUntil` (a
0.1 s gap), and `scheduledUntil` grows by `0.2 ≠ 0.1` — strictly more
than the unit's duration.  So within a single Running period a schedule
need not start at the previous watermark nor advance it by exactly the
chunk duration. -/
theorem c1_gap_counterexample :
    ((onAudioDataGenerated 0 [3, 4] (startFn 0 (initMain 10))).scheduledSources.getD 0
        ⟨0, 0, [], []⟩).duration = 1 / 10 ∧
    ((onAudioDataGenerated 0 [3, 4] (startFn 0 (initMain 10))).scheduledSources.getD 0
        ⟨0, 0, [], []⟩).startTime ≠ (startFn 0 (initMain 10)).scheduledUntil ∧
    (onAudioDataGenerated 0 [3, 4] (startFn 0 (initMain 10))).scheduledUntil -
        (startFn 0 (initMain 10)).scheduledUntil ≠ 1 / 10 := by
  norm_num [onAudioDataGenerated, startFn, initMain, List.getD]

/-- C1 amended: on every successful schedule while running, the new
unit starts at `max(scheduledUntil, now + 0.1)`, which is never earlier
than the previous watermark (so consecutive units never overlap), and
`scheduledUntil` advances to that start plus the unit's duration — by at
least the duration, and by exactly the duration (no gap) whenever
`now + 0.1 ≤ scheduledUntil` at scheduling time. -/
theorem c1_amended_no_overlap (now : ℚ) (data : List ℚ) (m : MainState)
    (hrun : m.isRunning = true) (heven : data.length % 2 = 0) :
    ∃ u : Source,
      (onAudioDataGenerated now data m).scheduledSources = m.scheduledSources ++ [u] ∧
      u.startTime = max m.scheduledUntil (now + 1 / 10) ∧
      u.duration = ((data.length / 2 : ℕ) : ℚ) / m.sampleRate ∧
      m.scheduledUntil ≤ u.startTime ∧
      (onAudioDataGenerated now data m).scheduledUntil = u.startTime + u.duration ∧
      m.scheduledUntil + u.duration ≤ (onAudioDataGenerated now data m).scheduledUntil ∧
      (now + 1 / 10 ≤ m.scheduledUntil →
        u.startTime = m.scheduledUntil ∧
        (onAudioDataGenerated now data m).scheduledUntil =
          m.scheduledUntil + u.duration) := by
  refine ⟨⟨max m.scheduledUntil (now + 1 / 10),
    ((data.length / 2 : ℕ) : ℚ) / m.sampleRate,
    (List.range (data.length / 2)).map fun i => data.getD (i * 2) 0,
    (List.range (data.length / 2)).map fun i => data.getD (i * 2 + 1) 0⟩,
    ?_, rfl, rfl, le_max_left _ _, ?_, ?_, ?_⟩
  · simp [onAudioDataGenerated, hrun]
  · simp [onAudioDataGenerated, hrun]
  · simp only [onAudioDataGenerated, hrun]
    simp only [Bool.true_eq_false, if_false]
    exact add_le_add_right (le_max_left _ _) _
  · intro hle
    have hmax : max m.scheduledUntil (now + 1 / 10) = m.scheduledUntil :=
      max_eq_left hle
    constructor
    · exact hmax
    · simp only [onAudioDataGenerated, hrun]
      simp only [Bool.true_eq_false, if_false]
      rw [hmax]

/-- Witness for C1 amended: the no-gap case, with the watermark well
ahead of device time. -/
theorem c1_amended_no_overlap_witness :
    ({ initMain 10 with isRunning := true, scheduledUntil := 5 } : MainState).isRunning
        = true ∧
    ([ (3 : ℚ), 4 ] : List ℚ).length % 2 = 0 ∧
    ∃ u : Source,
      (onAudioDataGenerated 2 [3, 4]
          { initMain 10 with isRunning := true, scheduledUntil := 5 }).scheduledSources =
        ({ initMain 10 with isRunning := true, scheduledUntil := 5 } :
          MainState).scheduledSources ++ [u] ∧
      u.startTime = max (5 : ℚ) (2 + 1 / 10) ∧
      u.duration = (((2 : ℕ) / 2 : ℕ) : ℚ) / 10 ∧
      (5 : ℚ) ≤ u.startTime ∧
      (onAudioDataGenerated 2 [3, 4]
          { initMain 10 with isRunning := true, scheduledUntil := 5 }).scheduledUntil =
        u.startTime + u.duration ∧
      (5 : ℚ) + u.duration ≤
        (onAudioDataGenerated 2 [3, 4]
          { initMain 10 with isRunning := true, scheduledUntil := 5 }).scheduledUntil ∧
      ((2 : ℚ) + 1 / 10 ≤ 5 →
        u.startTime = 5 ∧
        (onAudioDataGenerated 2 [3, 4]
            { initMain 10 with isRunning := true, scheduledUntil := 5 }).scheduledUntil =
          5 + u.duration) := by
  exact ⟨rfl, rfl, c1_amended_no_overlap 2 [3, 4]
    { initMain 10 with isRunning := true, scheduledUntil := 5 } rfl rfl⟩

/-- The worker's chunk has `2 * min(numSamples, maxTextureSize)`
entries, with frame `i`'s left sample at index `2i` (the red channel of
pixel `i`) and its right sample at index `2i+1` (the green channel). -/
theorem generateAudio_spec (f : ℚ → ℚ × ℚ) (mt n : ℕ) (sr t0 : ℚ) :
    (generateAudio f mt n sr t0).length = 2 * min n mt ∧
    ∀ i, i < min n mt →
      (generateAudio f mt n sr t0).getD (i * 2) 0 = (f ((i : ℚ) / sr + t0)).1 ∧
      (generateAudio f mt n sr t0).getD (i * 2 + 1) 0 = (f ((i : ℚ) / sr + t0)).2 := by
  unfold generateAudio
  set k := min n mt with hk
  set pixelData := (List.range k).flatMap fun i =>
    [(f ((i : ℚ) / sr + t0)).1, (f ((i : ℚ) / sr + t0)).2, 0, 1] with hpix
  have hpixget : ∀ i r, i < k → r < 4 →
      pixelData.getD (i * 4 + r) 0 =
        ([(f ((i : ℚ) / sr + t0)).1, (f ((i : ℚ) / sr + t0)).2, 0, 1] : List ℚ).getD r 0 := by
    intro i r hi hr
    exact flatMap_blocks_getD
      (fun i => [(f ((i : ℚ) / sr + t0)).1, (f ((i : ℚ) / sr + t0)).2, 0, 1]) 4
      (fun _ => rfl) k i r hi hr
  constructor
  · rw [flatMap_blocks_length
      (fun i => [pixelData.getD (i * 4) 0, pixelData.getD (i * 4 + 1) 0]) 2
      (fun _ => rfl) k]
    omega
  · intro i hi
    constructor
    · have h0 := flatMap_blocks_getD
        (fun i => [pixelData.getD (i * 4) 0, pixelData.getD (i * 4 + 1) 0]) 2
        (fun _ => rfl) k i 0 hi (by omega)
      rw [Nat.add_zero] at h0
      rw [h0]
      have := hpixget i 0 hi (by omega)
      rw [Nat.add_zero] at this
      simpa using this
    · have h1 := flatMap_blocks_getD
        (fun i => [pixelData.getD (i * 4) 0, pixelData.getD (i * 4 + 1) 0]) 2
        (fun _ => rfl) k i 1 hi (by omega)
      rw [h1]
      simpa using hpixget i 1 hi (by omega)

/-- C8: `generateAudio` evaluates exactly `min(numSamples,
maxTextureSize)` samples — the chunk holds `2 * min(numSamples,
maxTextureSize)` interleaved values, every clamped frame is an
evaluation of the program, and when the request exceeds the discovered
width the renderer silently returns the clamped chunk (strictly shorter
than the full request) instead of failing. -/
theorem c8_render_clamps (f : ℚ → ℚ × ℚ) (mt n : ℕ) (sr t0 : ℚ) :
    (generateAudio f mt n sr t0).length = 2 * min n mt ∧
    (∀ i, i < min n mt →
      (generateAudio f mt n sr t0).getD (i * 2) 0 = (f ((i : ℚ) / sr + t0)).1) ∧
    (mt < n →
      (generateAudio f mt n sr t0).length = 2 * mt ∧
      (generateAudio f mt n sr t0).length ≠ 2 * n) := by
  obtain ⟨hlen, hget⟩ := generateAudio_spec f mt n sr t0
  refine ⟨hlen, fun i hi => (hget i hi).1, fun hov => ?_⟩
  constructor
  · rw [hlen]; omega
  · rw [hlen]; omega

/-- Witness for C8: a request for 3 samples against a width limit of 2
yields a 4-value chunk whose first frame evaluates the program at
`timeOffset`. -/
theorem c8_render_clamps_witness :
    (generateAudio (fun t => (t, t + 1)) 2 3 1 0).length = 2 * min 3 2 ∧
    (0 : ℕ) < min 3 2 ∧
    (generateAudio (fun t => (t, t + 1)) 2 3 1 0).getD (0 * 2) 0 =
      ((fun t => (t, t + 1)) ((0 : ℚ) / 1 + 0) : ℚ × ℚ).1 ∧
    (2 : ℕ) < 3 ∧
    (generateAudio (fun t => (t, t + 1)) 2 3 1 0).length ≠ 2 * 3 := by
  have h := c8_render_clamps (fun t => (t, t + 1)) 2 3 1 0
  exact ⟨h.1, by norm_num, h.2.1 0 (by norm_num), by norm_num,
    (h.2.2 (by norm_num)).2⟩

/-- C10: the worker's reply interleaves left samples at even indices and
right samples at odd indices into a chunk of `2 * min(numSamples,
maxTextureSize)` values, and the playback scheduler splits even indices
into channel 0 and odd indices into channel 1, so the scheduled unit
holds exactly `min(numSamples, maxTextureSize)` stereo frames. -/
theorem c10_interleave_roundtrip (f : ℚ → ℚ × ℚ) (mt n : ℕ) (sr t0 now : ℚ)
    (m : MainState) (hrun : m.isRunning = true) :
    (generateAudio f mt n sr t0).length = 2 * min n mt ∧
    (∀ i, i < min n mt →
      (generateAudio f mt n sr t0).getD (i * 2) 0 = (f ((i : ℚ) / sr + t0)).1 ∧
      (generateAudio f mt n sr t0).getD (i * 2 + 1) 0 = (f ((i : ℚ) / sr + t0)).2) ∧
    ∃ u : Source,
      (onAudioDataGenerated now (generateAudio f mt n sr t0) m).scheduledSources =
        m.scheduledSources ++ [u] ∧
      u.left.length = min n mt ∧
      u.right.length = min n mt ∧
      ∀ i, i < min n mt →
        u.left.getD i 0 = (generateAudio f mt n sr t0).getD (i * 2) 0 ∧
        u.right.getD i 0 = (generateAudio f mt n sr t0).getD (i * 2 + 1) 0 := by
  obtain ⟨hlen, hget⟩ := generateAudio_spec f mt n sr t0
  refine ⟨hlen, hget, ?_⟩
  have hhalf : (generateAudio f mt n sr t0).length / 2 = min n mt := by
    rw [hlen]; omega
  refine ⟨⟨max m.scheduledUntil (now + 1 / 10),
    (((generateAudio f mt n sr t0).length / 2 : ℕ) : ℚ) / m.sampleRate,
    (List.range ((generateAudio f mt n sr t0).length / 2)).map
      fun i => (generateAudio f mt n sr t0).getD (i * 2) 0,
    (List.range ((generateAudio f mt n sr t0).length / 2)).map
      fun i => (generateAudio f mt n sr t0).getD (i * 2 + 1) 0⟩, ?_, ?_, ?_, ?_⟩
  · simp [onAudioDataGenerated, hrun]
  · simp [hhalf]
  · simp [hhalf]
  · intro i hi
    rw [hhalf]
    exact ⟨map_range_getD _ _ i hi, map_range_getD _ _ i hi⟩

/-- Witness for C10: two frames generated at unit sample rate, received
by a running instance. -/
theorem c10_interleave_roundtrip_witness :
    ({ initMain 10 with isRunning := true } : MainState).isRunning = true ∧
    (generateAudio (fun t => (t, -t)) 4096 2 1 0).length = 2 * min 2 4096 ∧
    ∃ u : Source,
      (onAudioDataGenerated 0 (generateAudio (fun t => (t, -t)) 4096 2 1 0)
          { initMain 10 with isRunning := true }).scheduledSources =
        ({ initMain 10 with isRunning := true } : MainState).scheduledSources ++ [u] ∧
      u.left.length = min 2 4096 ∧
      u.right.length = min 2 4096 ∧
      ∀ i, i < min 2 4096 →
        u.left.getD i 0 = (generateAudio (fun t => (t, -t)) 4096 2 1 0).getD (i * 2) 0 ∧
        u.right.getD i 0 =
          (generateAudio (fun t => (t, -t)) 4096 2 1 0).getD (i * 2 + 1) 0 := by
  have h := c10_interleave_roundtrip (fun t => (t, -t)) 4096 2 1 0 0
    { initMain 10 with isRunning := true } rfl
  exact ⟨rfl, h.1, h.2.2⟩

/-! ### The single-in-flight invariant (C2) -/

theorem noAfterB_singleton (x y : α → Bool) (a : α) : noAfterB x y [a] = true := by
  simp [noAfterB]

@[simp] theorem setShaderFn_snd (code : String) (m : MainState) :
    (setShaderFn code m).2 = [WMsg.updateShader code] := by
  by_cases h : m.isRunning = true <;> simp [setShaderFn, h]

@[simp] theorem setShaderFn_generating (code : String) (m : MainState) :
    (setShaderFn code m).1.generating = m.generating := by
  by_cases h : m.isRunning = true <;> simp [setShaderFn, h, stopFn]

@[simp] theorem setShaderFn_workerReady (code : String) (m : MainState) :
    (setShaderFn code m).1.workerReady = false := by
  by_cases h : m.isRunning = true <;> simp [setShaderFn, h, stopFn]

@[simp] theorem setShaderFn_swapPending (code : String) (m : MainState) :
    (setShaderFn code m).1.swapPending = m.swapPending ++ [m.isRunning] := by
  by_cases h : m.isRunning = true
  · simp [setShaderFn, h, stopFn]
  · rw [Bool.not_eq_true] at h
    simp [setShaderFn, h]

/-- Every event preserves the invariant, provided a `setShader` call only
happens when no earlier swap is still awaiting readiness. -/
theorem inv_step (f : ℚ → ℚ × ℚ) (e : Ev) (s : Sys) (hInv : Inv s)
    (hser : ∀ c, e = Ev.setShaderEv c → s.m.swapPending = []) :
    Inv (step f e s) := by
  obtain ⟨h1, h2, h3, h4, h5, h6, h7, h8, h9⟩ := hInv
  cases e with
  | startEv now =>
      show InvD s.inbox s.outbox (startFn now s.m).generating
        (startFn now s.m).workerReady (startFn now s.m).swapPending
      rw [startFn_generating, startFn_workerReady, startFn_swapPending]
      exact ⟨h1, h2, h3, h4, h5, h6, h7, h8, h9⟩
  | stopEv =>
      exact ⟨h1, h2, h3, h4, h5, h6, h7, h8, h9⟩
  | sourceEnded i =>
      exact ⟨h1, h2, h3, h4, h5, h6, h7, h8, h9⟩
  | disposeEv =>
      exact ⟨h1, h2, h3, h4, h5, h6, h7, h8, h9⟩
  | swapDone now =>
      cases hsp : s.m.swapPending with
      | nil =>
          have hgoal : step f (.swapDone now) s = s := by
            show { s with m := swapDoneFn now s.m } = s
            simp [swapDoneFn, hsp]
          rw [hgoal]
          exact ⟨h1, h2, h3, h4, h5, h6, h7, h8, h9⟩
      | cons w rest =>
          by_cases hr : s.m.workerReady = true
          · obtain ⟨hSI, hSR⟩ := h4 hr
            have hSC : s.outbox.countP isCompletion = 0 :=
              Nat.le_antisymm (hSR ▸ countP_completion_le s.outbox) (Nat.zero_le _)
            have hswap : 1 ≤ s.inbox.countP isShaderMsg +
                s.outbox.countP isCompletion → rest ≠ [] := by
              intro hge
              omega
            cases w with
            | false =>
                have hgoal : step f (.swapDone now) s =
                    { s with m := { s.m with swapPending := rest } } := by
                  show { s with m := swapDoneFn now s.m } = _
                  simp [swapDoneFn, hsp, hr]
                rw [hgoal]
                exact ⟨h1, h2, h3, fun _ => ⟨hSI, hSR⟩, h5, h6, h7, h8, hswap⟩
            | true =>
                have hgoal : step f (.swapDone now) s =
                    { s with m := startFn now { s.m with swapPending := rest } } := by
                  show { s with m := swapDoneFn now s.m } = _
                  simp [swapDoneFn, hsp, hr]
                rw [hgoal]
                show InvD s.inbox s.outbox
                  (startFn now { s.m with swapPending := rest }).generating
                  (startFn now { s.m with swapPending := rest }).workerReady
                  (startFn now { s.m with swapPending := rest }).swapPending
                rw [startFn_generating, startFn_workerReady, startFn_swapPending]
                exact ⟨h1, h2, h3, fun _ => ⟨hSI, hSR⟩, h5, h6, h7, h8, hswap⟩
          · have hgoal : step f (.swapDone now) s = s := by
              show { s with m := swapDoneFn now s.m } = s
              simp [swapDoneFn, hsp, hr]
            rw [hgoal]
            exact ⟨h1, h2, h3, h4, h5, h6, h7, h8, h9⟩
  | setShaderEv code =>
      have hsp : s.m.swapPending = [] := hser code rfl
      have hSIC : s.inbox.countP isShaderMsg = 0 ∧
          s.outbox.countP isCompletion = 0 := by
        by_contra hcon
        exact (h9 (by omega)) hsp
      have kr : List.countP isRenderMsg [WMsg.updateShader code] = 0 := by
        simp [isRenderMsg]
      have ks : List.countP isShaderMsg [WMsg.updateShader code] = 1 := by
        simp [isShaderMsg]
      have kar : (s.inbox ++ [WMsg.updateShader code]).countP isRenderMsg =
          s.inbox.countP isRenderMsg := by
        rw [List.countP_append, kr]
        omega
      have kas : (s.inbox ++ [WMsg.updateShader code]).countP isShaderMsg =
          s.inbox.countP isShaderMsg + 1 := by
        rw [List.countP_append, ks]
      show InvD (s.inbox ++ (setShaderFn code s.m).2) s.outbox
        (setShaderFn code s.m).1.generating
        (setShaderFn code s.m).1.workerReady
        (setShaderFn code s.m).1.swapPending
      rw [setShaderFn_snd, setShaderFn_generating, setShaderFn_workerReady,
        setShaderFn_swapPending, hsp]
      refine ⟨?_, ?_, ?_, ?_, ?_, ?_, h7, h8, ?_⟩
      · omega
      · rw [h2]
        omega
      · omega
      · intro hcon
        simp at hcon
      · rw [noAfterB_append_iff]
        exact ⟨h5, noAfterB_singleton _ _ _, fun _ => kr⟩
      · intro hri
        exact h6 (by omega)
      · intro _
        simp
  | tick now =>
      show InvD (s.inbox ++ (generationTick now s.m).2) s.outbox
        (generationTick now s.m).1.generating
        (generationTick now s.m).1.workerReady
        (generationTick now s.m).1.swapPending
      by_cases hrun : s.m.isRunning = false
      · rw [show generationTick now s.m = (s.m, []) from by simp [generationTick, hrun]]
        simpa using ⟨h1, h2, h3, h4, h5, h6, h7, h8, h9⟩
      · by_cases hc : s.m.scheduledUntil - now < s.m.bufferAheadTime ∧
            s.m.workerReady = true ∧ s.m.generating = false
        · rw [show generationTick now s.m =
              ({ s.m with generating := true },
               [.render (min s.m.maxTextureSize 8192) s.m.sampleRate s.m.currentTime])
            from by simp [generationTick, hrun, hc]]
          show InvD
            (s.inbox ++
              [WMsg.render (min s.m.maxTextureSize 8192) s.m.sampleRate s.m.currentTime])
            s.outbox true s.m.workerReady s.m.swapPending
          obtain ⟨hSI, hSR⟩ := h4 hc.2.1
          have hflight : s.inbox.countP isRenderMsg +
              s.outbox.countP isRenderReply = 0 := by
            rcases Nat.lt_or_ge (s.inbox.countP isRenderMsg +
              s.outbox.countP isRenderReply) 1 with h | h
            · omega
            · exact absurd (h2.mpr (by omega)) (by simp [hc.2.2])
          have kr : List.countP isRenderMsg
              [WMsg.render (min s.m.maxTextureSize 8192) s.m.sampleRate
                s.m.currentTime] = 1 := by
            simp [isRenderMsg]
          have ks : List.countP isShaderMsg
              [WMsg.render (min s.m.maxTextureSize 8192) s.m.sampleRate
                s.m.currentTime] = 0 := by
            simp [isShaderMsg]
          have kar := List.countP_append isRenderMsg s.inbox
            [WMsg.render (min s.m.maxTextureSize 8192) s.m.sampleRate s.m.currentTime]
          have kas := List.countP_append isShaderMsg s.inbox
            [WMsg.render (min s.m.maxTextureSize 8192) s.m.sampleRate s.m.currentTime]
          refine ⟨?_, ?_, ?_, ?_, ?_, ?_, h7, h8, ?_⟩
          · omega
          · constructor
            · intro _
              omega
            · intro _
              rfl
          · omega
          · intro _
            exact ⟨by omega, hSR⟩
          · rw [noAfterB_append_iff]
            refine ⟨h5, noAfterB_singleton _ _ _, fun hy => absurd hy ?_⟩
            simp [hSI]
          · intro _
            exact hSR
          · intro hge
            exact h9 (by omega)
        · rw [show generationTick now s.m = (s.m, []) from by
            simp [generationTick, hrun, hc]]
          simpa using ⟨h1, h2, h3, h4, h5, h6, h7, h8, h9⟩
  | recv now =>
      cases ho : s.outbox with
      | nil =>
          have hgoal : step f (.recv now) s = s := by
            show (match s.outbox with
              | [] => s
              | msg :: rest => { s with m := handleMsg now msg s.m, outbox := rest }) = s
            rw [ho]
          rw [hgoal]
          exact ⟨h1, h2, h3, h4, h5, h6, h7, h8, h9⟩
      | cons msg rest =>
          have hgoal : step f (.recv now) s =
              { s with m := handleMsg now msg s.m, outbox := rest } := by
            show (match s.outbox with
              | [] => s
              | msg :: rest => { s with m := handleMsg now msg s.m, outbox := rest }) = _
            rw [ho]
          rw [hgoal]
          rw [ho] at h1 h2 h3 h4 h6 h7 h8 h9
          rw [noAfterB_cons_iff] at h7 h8
          cases msg with
          | ready =>
              show InvD s.inbox rest s.m.generating true s.m.swapPending
              have hRR : rest.countP isRenderReply = 0 := h7.1 rfl
              have hMT : rest.countP isMaxTex = 0 := h8.1 rfl
              have k1 : List.countP isRenderReply (MMsg.ready :: rest) =
                  rest.countP isRenderReply := by
                simp [List.countP_cons, isRenderReply]
              have k2 : List.countP isCompletion (MMsg.ready :: rest) =
                  rest.countP isCompletion + 1 := by
                simp [List.countP_cons, isCompletion]
              have hSI : s.inbox.countP isShaderMsg = 0 := by omega
              have hSC : rest.countP isCompletion = 0 := by omega
              have hSR : rest.countP isShaderReply = 0 := by
                have := countP_shaderReply_le rest
                omega
              refine ⟨by omega, ?_, by omega, fun _ => ⟨hSI, hSR⟩, h5,
                fun _ => hSR, h7.2, h8.2, fun hge => h9 (by omega)⟩
              rw [h2]
              omega
          | maxTex sz =>
              show InvD s.inbox rest s.m.generating s.m.workerReady s.m.swapPending
              have k1 : List.countP isRenderReply (MMsg.maxTex sz :: rest) =
                  rest.countP isRenderReply := by
                simp [List.countP_cons, isRenderReply]
              have k2 : List.countP isCompletion (MMsg.maxTex sz :: rest) =
                  rest.countP isCompletion := by
                simp [List.countP_cons, isCompletion]
              have k3 : List.countP isShaderReply (MMsg.maxTex sz :: rest) =
                  rest.countP isShaderReply + 1 := by
                simp [List.countP_cons, isShaderReply]
              refine ⟨by omega, ?_, by omega, ?_, h5, ?_, h7.2, h8.2,
                fun hge => h9 (by omega)⟩
              · rw [h2]
                omega
              · intro hr
                obtain ⟨hSI, hSR⟩ := h4 hr
                exact ⟨hSI, by omega⟩
              · intro hri
                have := h6 hri
                omega
          | audioData d =>
              show InvD s.inbox rest
                (onAudioDataGenerated now d { s.m with generating := false }).generating
                (onAudioDataGenerated now d { s.m with generating := false }).workerReady
                (onAudioDataGenerated now d { s.m with generating := false }).swapPending
              rw [onAudio_generating, onAudio_workerReady, onAudio_swapPending]
              have k1 : List.countP isRenderReply (MMsg.audioData d :: rest) =
                  rest.countP isRenderReply + 1 := by
                simp [List.countP_cons, isRenderReply]
              have k2 : List.countP isCompletion (MMsg.audioData d :: rest) =
                  rest.countP isCompletion := by
                simp [List.countP_cons, isCompletion]
              have k3 : List.countP isShaderReply (MMsg.audioData d :: rest) =
                  rest.countP isShaderReply := by
                simp [List.countP_cons, isShaderReply]
              have hRI : s.inbox.countP isRenderMsg = 0 := by omega
              have hRO : rest.countP isRenderReply = 0 := by omega
              refine ⟨by omega, ?_, by omega, ?_, h5,
                fun hri => by omega, h7.2, h8.2, fun hge => h9 (by omega)⟩
              · simp only [Bool.false_eq_true, false_iff]
                omega
              · intro hr
                obtain ⟨hSI, hSR⟩ := h4 hr
                exact ⟨hSI, by omega⟩
          | error b =>
              show InvD s.inbox rest false s.m.workerReady s.m.swapPending
              cases b with
              | true =>
                  have k1 : List.countP isRenderReply (MMsg.error true :: rest) =
                      rest.countP isRenderReply + 1 := by
                    simp [List.countP_cons, isRenderReply]
                  have k2 : List.countP isCompletion (MMsg.error true :: rest) =
                      rest.countP isCompletion := by
                    simp [List.countP_cons, isCompletion]
                  have k3 : List.countP isShaderReply (MMsg.error true :: rest) =
                      rest.countP isShaderReply := by
                    simp [List.countP_cons, isShaderReply]
                  have hRI : s.inbox.countP isRenderMsg = 0 := by omega
                  have hRO : rest.countP isRenderReply = 0 := by omega
                  refine ⟨by omega, ?_, by omega, ?_, h5,
                    fun hri => by omega, h7.2, h8.2, fun hge => h9 (by omega)⟩
                  · simp only [Bool.false_eq_true, false_iff]
                    omega
                  · intro hr
                    obtain ⟨hSI, hSR⟩ := h4 hr
                    exact ⟨hSI, by omega⟩
              | false =>
                  have hRR : rest.countP isRenderReply = 0 := h7.1 rfl
                  have hMT : rest.countP isMaxTex = 0 := h8.1 rfl
                  have k1 : List.countP isRenderReply (MMsg.error false :: rest) =
                      rest.countP isRenderReply := by
                    simp [List.countP_cons, isRenderReply]
                  have k2 : List.countP isCompletion (MMsg.error false :: rest) =
                      rest.countP isCompletion + 1 := by
                    simp [List.countP_cons, isCompletion]
                  have k3 : List.countP isShaderReply (MMsg.error false :: rest) =
                      rest.countP isShaderReply + 1 := by
                    simp [List.countP_cons, isShaderReply]
                  have hSI : s.inbox.countP isShaderMsg = 0 := by omega
                  have hSC : rest.countP isCompletion = 0 := by omega
                  have hSR : rest.countP isShaderReply = 0 := by
                    have := countP_shaderReply_le rest
                    omega
                  have hRI : s.inbox.countP isRenderMsg = 0 := by
                    by_contra hcon
                    have := h6 (by omega)
                    omega
                  refine ⟨by omega, ?_, by omega, fun _ => ⟨hSI, hSR⟩, h5,
                    fun _ => hSR, h7.2, h8.2, fun hge => h9 (by omega)⟩
                  simp only [Bool.false_eq_true, false_iff]
                  omega
  | wstep glOk compileOk =>
      cases hi : s.inbox with
      | nil =>
          have hgoal : step f (.wstep glOk compileOk) s = s := by
            show (match s.inbox with
              | [] => s
              | msg :: rest =>
                  { s with w := (workerProcess f glOk compileOk msg s.w).1,
                           inbox := rest,
                           outbox := s.outbox ++
                             (workerProcess f glOk compileOk msg s.w).2 }) = s
            rw [hi]
          rw [hgoal]
          exact ⟨h1, h2, h3, h4, h5, h6, h7, h8, h9⟩
      | cons msg rest =>
          have hgoal : step f (.wstep glOk compileOk) s =
              { s with w := (workerProcess f glOk compileOk msg s.w).1,
                       inbox := rest,
                       outbox := s.outbox ++
                         (workerProcess f glOk compileOk msg s.w).2 } := by
            show (match s.inbox with
              | [] => s
              | msg :: rest =>
                  { s with w := (workerProcess f glOk compileOk msg s.w).1,
                           inbox := rest,
                           outbox := s.outbox ++
                             (workerProcess f glOk compileOk msg s.w).2 }) = _
            rw [hi]
          rw [hgoal]
          show InvD rest
            (s.outbox ++ (workerProcess f glOk compileOk msg s.w).2)
            s.m.generating s.m.workerReady s.m.swapPending
          rw [hi] at h1 h2 h3 h4 h5 h6 h9
          rw [noAfterB_cons_iff] at h5
          have karr := List.countP_append isRenderReply s.outbox
            (workerProcess f glOk compileOk msg s.w).2
          have karc := List.countP_append isCompletion s.outbox
            (workerProcess f glOk compileOk msg s.w).2
          have kars := List.countP_append isShaderReply s.outbox
            (workerProcess f glOk compileOk msg s.w).2
          cases msg with
          | render n sr t =>
              have k0 : List.countP isRenderMsg (WMsg.render n sr t :: rest) =
                  rest.countP isRenderMsg + 1 := by
                simp [List.countP_cons, isRenderMsg]
              have k0s : List.countP isShaderMsg (WMsg.render n sr t :: rest) =
                  rest.countP isShaderMsg := by
                simp [List.countP_cons, isShaderMsg]
              have hSR : s.outbox.countP isShaderReply = 0 := h6 (by omega)
              have hSC : s.outbox.countP isCompletion = 0 :=
                Nat.le_antisymm (hSR ▸ countP_completion_le s.outbox) (Nat.zero_le _)
              have hRO : s.outbox.countP isRenderReply = 0 := by omega
              have hRI : rest.countP isRenderMsg = 0 := by omega
              have hg : s.m.generating = true := h2.mpr (by omega)
              have hout : (workerProcess f glOk compileOk (.render n sr t) s.w).2.countP
                    isRenderReply = 1 ∧
                  (workerProcess f glOk compileOk (.render n sr t) s.w).2.countP
                    isCompletion = 0 ∧
                  (workerProcess f glOk compileOk (.render n sr t) s.w).2.countP
                    isShaderReply = 0 ∧
                  noAfterB isRenderReply isShaderReply
                    (workerProcess f glOk compileOk (.render n sr t) s.w).2 = true ∧
                  noAfterB isMaxTex isCompletion
                    (workerProcess f glOk compileOk (.render n sr t) s.w).2 = true := by
                by_cases hgl : glOk = true <;>
                  simp [workerProcess, hgl, List.countP_cons, isRenderReply,
                    isCompletion, isShaderReply, isMaxTex, noAfterB]
              obtain ⟨ho1, ho2, ho3, ho4, ho5⟩ := hout
              refine ⟨by omega, ?_, by omega, ?_, h5.2, ?_, ?_, ?_, ?_⟩
              · constructor
                · intro _
                  omega
                · intro _
                  exact hg
              · intro hr
                obtain ⟨hSIf, hSRz⟩ := h4 hr
                exact ⟨by omega, by omega⟩
              · intro hcon
                omega
              · rw [noAfterB_append_iff]
                exact ⟨h7, ho4, fun hy => absurd hy (by omega)⟩
              · rw [noAfterB_append_iff]
                exact ⟨h8, ho5, fun hy => absurd hy (by omega)⟩
              · intro hge
                exact h9 (by omega)
          | init code =>
              have k0 : List.countP isRenderMsg (WMsg.init code :: rest) =
                  rest.countP isRenderMsg := by
                simp [List.countP_cons, isRenderMsg]
              have k0s : List.countP isShaderMsg (WMsg.init code :: rest) =
                  rest.countP isShaderMsg + 1 := by
                simp [List.countP_cons, isShaderMsg]
              have hRI : rest.countP isRenderMsg = 0 := h5.1 rfl
              have hSC : s.outbox.countP isCompletion = 0 := by omega
              have hSI : rest.countP isShaderMsg = 0 := by omega
              have hout : (workerProcess f glOk compileOk (.init code) s.w).2.countP
                    isRenderReply = 0 ∧
                  (workerProcess f glOk compileOk (.init code) s.w).2.countP
                    isCompletion = 1 ∧
                  noAfterB isRenderReply isShaderReply
                    (workerProcess f glOk compileOk (.init code) s.w).2 = true ∧
                  noAfterB isMaxTex isCompletion
                    (workerProcess f glOk compileOk (.init code) s.w).2 = true := by
                by_cases hgl : glOk = true <;> by_cases hcm : compileOk = true <;>
                  simp [workerProcess, hgl, hcm, List.countP_cons, isRenderReply,
                    isCompletion, isShaderReply, isMaxTex, noAfterB]
              obtain ⟨ho1, ho2, ho3, ho4⟩ := hout
              refine ⟨by omega, ?_, by omega, ?_, h5.2, ?_, ?_, ?_, ?_⟩
              · rw [h2]
                omega
              · intro hr
                obtain ⟨hSIf, _⟩ := h4 hr
                exact ⟨by omega, by omega⟩
              · intro hcon
                omega
              · rw [noAfterB_append_iff]
                exact ⟨h7, ho3, fun _ => ho1⟩
              · rw [noAfterB_append_iff]
                exact ⟨h8, ho4, fun hy => absurd hy (by omega)⟩
              · intro _
                exact h9 (by omega)
          | updateShader code =>
              have k0 : List.countP isRenderMsg (WMsg.updateShader code :: rest) =
                  rest.countP isRenderMsg := by
                simp [List.countP_cons, isRenderMsg]
              have k0s : List.countP isShaderMsg (WMsg.updateShader code :: rest) =
                  rest.countP isShaderMsg + 1 := by
                simp [List.countP_cons, isShaderMsg]
              have hRI : rest.countP isRenderMsg = 0 := h5.1 rfl
              have hSC : s.outbox.countP isCompletion = 0 := by omega
              have hSI : rest.countP isShaderMsg = 0 := by omega
              have hout : (workerProcess f glOk compileOk (.updateShader code) s.w).2.countP
                    isRenderReply = 0 ∧
                  (workerProcess f glOk compileOk (.updateShader code) s.w).2.countP
                    isCompletion = 1 ∧
                  noAfterB isRenderReply isShaderReply
                    (workerProcess f glOk compileOk (.updateShader code) s.w).2 = true ∧
                  noAfterB isMaxTex isCompletion
                    (workerProcess f glOk compileOk (.updateShader code) s.w).2 = true := by
                by_cases hcm : compileOk = true <;>
                  simp [workerProcess, hcm, List.countP_cons, isRenderReply,
                    isCompletion, isShaderReply, isMaxTex, noAfterB]
              obtain ⟨ho1, ho2, ho3, ho4⟩ := hout
              refine ⟨by omega, ?_, by omega, ?_, h5.2, ?_, ?_, ?_, ?_⟩
              · rw [h2]
                omega
              · intro hr
                obtain ⟨hSIf, _⟩ := h4 hr
                exact ⟨by omega, by omega⟩
              · intro hcon
                omega
              · rw [noAfterB_append_iff]
                exact ⟨h7, ho3, fun _ => ho1⟩
              · rw [noAfterB_append_iff]
                exact ⟨h8, ho4, fun hy => absurd hy (by omega)⟩
              · intro _
                exact h9 (by omega)

/-- The freshly initialized system satisfies the invariant. -/
theorem inv_init (sr : ℚ) (dm : ℕ) (code : String) : Inv (initSys sr dm code) := by
  refine ⟨?_, ?_, ?_, ?_, ?_, ?_, ?_, ?_, ?_⟩ <;>
    simp [initSys, initMain, isRenderMsg, isShaderMsg, List.countP_cons, noAfterB]

/-- The invariant holds along every swap-serialized trace. -/
theorem inv_run (f : ℚ → ℚ × ℚ) (s : Sys) (evs : List Ev) (hInv : Inv s)
    (hok : okEvs f s evs = true) : Inv (run f s evs) := by
  induction evs generalizing s with
  | nil => exact hInv
  | cons e t ih =>
      rw [show okEvs f s (e :: t) = (evOk s e && okEvs f (step f e s) t) from rfl,
        Bool.and_eq_true] at hok
      refine ih (step f e s) (inv_step f e s hInv ?_) hok.2
      intro c hc
      subst hc
      exact List.isEmpty_iff.mp hok.1

/-- C2 counterexample: the claim fails on overlapping `setShader` calls.
Concretely: the initial shader compiles and reports `ready`; playback
starts; `setShader("a")` stops playback and posts an update; the worker
compiles `"a"` and posts `ready`; before that `ready` is delivered,
`setShader("b")` posts a second update and clears the readiness flag;
the stale `ready` from `"a"` then re-arms `workerReady`, a swap waiter
restarts playback, and a tick posts render №1; the compile of `"b"`
fails and its `error` message clears `generating`, although that flag
was guarding render №1; the next tick therefore posts render №2 while
render №1 is still queued — two GenerationRequests in flight. -/
theorem c2_counterexample :
    flight (run (fun _ => ((0 : ℚ), (0 : ℚ))) (initSys 10 4096 "s")
      [.wstep true true, .recv 0, .recv 0, .swapDone 0, .startEv 0,
       .setShaderEv "a", .wstep true true, .setShaderEv "b", .recv 0, .swapDone 0,
       .tick 0, .wstep true false, .recv 0, .tick 0]) = 2 := by
  norm_num [run, step, generationTick, setShaderFn, handleMsg, onAudioDataGenerated,
    startFn, stopFn, swapDoneFn, workerProcess, initSys, initMain, flight,
    isRenderMsg, isRenderReply, List.countP, List.countP.go]

/-- C2 amended: along every trace in which `setShader` calls are
serialized (each call's readiness wait resolves before the next call is
made), at most one GenerationRequest is in flight at every reachable
state.  Under overlapping swaps a stale `ready` plus a late compile
`error` can clear the in-flight flag early and break the bound (see the
counterexample). -/
theorem c2_serialized_single_flight (f : ℚ → ℚ × ℚ) (sr : ℚ) (dm : ℕ)
    (code : String) (evs : List Ev)
    (hok : okEvs f (initSys sr dm code) evs = true) :
    flight (run f (initSys sr dm code) evs) ≤ 1 :=
  (inv_run f (initSys sr dm code) evs (inv_init sr dm code) hok).flight_le

/-- Witness for C2 amended on a short concrete serialized trace. -/
theorem c2_serialized_single_flight_witness :
    okEvs (fun _ => ((0 : ℚ), (0 : ℚ))) (initSys 10 4096 "s")
        [.wstep true true, .recv 0, .recv 0, .swapDone 0, .startEv 0] = true ∧
    flight (run (fun _ => ((0 : ℚ), (0 : ℚ))) (initSys 10 4096 "s")
        [.wstep true true, .recv 0, .recv 0, .swapDone 0, .startEv 0]) ≤ 1 := by
  constructor
  · norm_num [okEvs, evOk, step, handleMsg, workerProcess, swapDoneFn, startFn,
      initSys, initMain]
  · exact c2_serialized_single_flight (fun _ => ((0 : ℚ), (0 : ℚ))) 10 4096 "s"
      [.wstep true true, .recv 0, .recv 0, .swapDone 0, .startEv 0]
      (by norm_num [okEvs, evOk, step, handleMsg, workerProcess, swapDoneFn, startFn,
        initSys, initMain])

/-- C6 counterexample: `setShader` while running does not restart
playback when the renderer signals an error.  After the concrete trace
(init succeeds and reports ready, swaps resolve, playback starts,
`setShader("a")` posts an update, the compile fails and the `error`
message is delivered) the instance is stopped with one swap waiter still
pending, the readiness flag is false, and the waiter's poll event is a
no-op — playback is not restarted, contradicting the claim that the
wait ends on ready *or error* followed by a restart. -/
theorem c6_counterexample :
    (run (fun _ => ((0 : ℚ), (0 : ℚ))) (initSys 10 4096 "s")
        [.wstep true true, .recv 0, .recv 0, .swapDone 0, .startEv 0,
         .setShaderEv "a", .wstep true false, .recv 0]).m.isRunning = false ∧
    (run (fun _ => ((0 : ℚ), (0 : ℚ))) (initSys 10 4096 "s")
        [.wstep true true, .recv 0, .recv 0, .swapDone 0, .startEv 0,
         .setShaderEv "a", .wstep true false, .recv 0]).m.workerReady = false ∧
    (run (fun _ => ((0 : ℚ), (0 : ℚ))) (initSys 10 4096 "s")
        [.wstep true true, .recv 0, .recv 0, .swapDone 0, .startEv 0,
         .setShaderEv "a", .wstep true false, .recv 0]).m.swapPending = [true] ∧
    step (fun _ => ((0 : ℚ), (0 : ℚ))) (.swapDone 7)
        (run (fun _ => ((0 : ℚ), (0 : ℚ))) (initSys 10 4096 "s")
          [.wstep true true, .recv 0, .recv 0, .swapDone 0, .startEv 0,
           .setShaderEv "a", .wstep true false, .recv 0]) =
      run (fun _ => ((0 : ℚ), (0 : ℚ))) (initSys 10 4096 "s")
        [.wstep true true, .recv 0, .recv 0, .swapDone 0, .startEv 0,
         .setShaderEv "a", .wstep true false, .recv 0] := by
  norm_num [run, step, generationTick, setShaderFn, handleMsg, onAudioDataGenerated,
    startFn, stopFn, swapDoneFn, workerProcess, initSys, initMain]

/-- C6 amended: `setProgram` while running stops playback and sends
`updateShader`, then waits by polling the readiness flag *only*:
if the renderer replies with an error, the flag stays false, the waiter
never resolves (its poll event is a no-op) and playback stays stopped;
playback is restarted exactly when the renderer signals ready. -/
theorem c6_amended (f : ℚ → ℚ × ℚ) (code : String) (n1 n2 : ℚ) (s : Sys)
    (hrun : s.m.isRunning = true) (hin : s.inbox = []) (hout : s.outbox = [])
    (hswap : s.m.swapPending = []) :
    (step f (.setShaderEv code) s).m.isRunning = false ∧
    (step f (.setShaderEv code) s).inbox = [WMsg.updateShader code] ∧
    (step f (.setShaderEv code) s).m.workerReady = false ∧
    (run f s [.setShaderEv code, .wstep true false, .recv n1]).m.isRunning = false ∧
    (run f s [.setShaderEv code, .wstep true false, .recv n1]).m.workerReady = false ∧
    step f (.swapDone n2) (run f s [.setShaderEv code, .wstep true false, .recv n1]) =
      run f s [.setShaderEv code, .wstep true false, .recv n1] ∧
    (run f s [.setShaderEv code, .wstep true true, .recv n1, .swapDone n2]).m.isRunning
      = true := by
  simp [run, step, setShaderFn, stopFn, workerProcess, handleMsg, swapDoneFn,
    startFn, hrun, hin, hout, hswap]

/-- Witness for C6 amended at a concrete running instance. -/
theorem c6_amended_witness :
    ({ m := { initMain 10 with isRunning := true },
       w := ⟨4096, 4096⟩, inbox := [], outbox := [] } : Sys).m.isRunning = true ∧
    (run (fun _ => ((0 : ℚ), (0 : ℚ)))
        { m := { initMain 10 with isRunning := true },
          w := ⟨4096, 4096⟩, inbox := [], outbox := [] }
        [.setShaderEv "x", .wstep true false, .recv 0]).m.isRunning = false ∧
    (run (fun _ => ((0 : ℚ), (0 : ℚ)))
        { m := { initMain 10 with isRunning := true },
          w := ⟨4096, 4096⟩, inbox := [], outbox := [] }
        [.setShaderEv "x", .wstep true true, .recv 0, .swapDone 0]).m.isRunning
      = true := by
  have h := c6_amended (fun _ => ((0 : ℚ), (0 : ℚ))) "x" 0 0
    { m := { initMain 10 with isRunning := true },
      w := ⟨4096, 4096⟩, inbox := [], outbox := [] } rfl rfl rfl rfl
  exact ⟨rfl, h.2.2.2.1, h.2.2.2.2.2.2⟩

end AudioShader
